import Mathlib

set_option autoImplicit false

/-!
Verification development for the ABSA PDF-to-CSV converter.

Part 1 models the Python application `src/absa_app.py` (the Streamlit
wrapper): the Gemini API interaction of `process_with_ai`, the per-file
loop of `main`, and the DataFrame/CSV emission.  External effects
(`requests.post`, `json.loads`) are modelled as explicit inputs: the
environment is a function from the posted prompt to an API outcome, and
the JSON decoder is a function from the response text to a decode result.

Part 2 models the transaction-extraction engine described by the
specification (amount resolver and record builder); that engine is not
part of `src/absa_app.py`, which delegates extraction to the remote AI,
so those definitions are modelled from the specification text.
-/

namespace AbsaApp

/-- A JSON scalar value as it appears in the transaction objects decoded
from the AI response, or as a cell of the pandas DataFrame. -/
inductive JVal where
  | s (v : String)
  | n (v : ℚ)
  | null
  deriving DecidableEq, Repr

/-- A decoded JSON object: ordered key-value pairs, as `json.loads`
produces for a single transaction record. -/
abbrev JObj := List (String × JVal)

/-- One element of `candidates[0]['content']['parts']` carries a text
field; we model the list of part texts. -/
structure Content where
  parts : List String
  deriving DecidableEq, Repr

/-- One element of the `candidates` array of the Gemini response; the
`content` entry may be absent (`.get('content')` returns `None`). -/
structure Candidate where
  content : Option Content
  deriving DecidableEq, Repr

/-- The parsed JSON body of the Gemini HTTP response; the `candidates`
entry may be absent.  An absent or empty list is falsy in Python. -/
structure GeminiResponse where
  candidates : Option (List Candidate)
  deriving DecidableEq, Repr

/-- Outcome of `requests.post` followed by `raise_for_status` and
`response.json()`, as seen by the `try` block of `process_with_ai`:
the request may raise, the status check may raise, the body may fail to
parse as JSON, or a parsed response body is available. -/
inductive ApiOutcome where
  | requestException (msg : String)
  | httpError (code : Nat)
  | invalidJsonBody
  | ok (resp : GeminiResponse)
  deriving DecidableEq, Repr

/-- The Python exception classes distinguished by the `except` clauses of
`process_with_ai`. -/
inductive PyExc where
  | httpErr
  | requestExc
  | jsonDecodeErr
  | otherExc
  deriving DecidableEq, Repr

/-- The environment of one call: the JSON decoder applied to the text of
the first response part (`json.loads(raw_text)`), which either yields a
list of transaction objects or raises `JSONDecodeError`. -/
abbrev Decoder := String → Except Unit (List JObj)

/-- The API itself: a function from the posted prompt to the outcome of
the HTTP interaction. -/
abbrev ApiEnv := String → ApiOutcome

/-- The prompt template of `process_with_ai` up to the interpolation
point `\x7bpdf_text\x7d` of the Python f-string. -/
def promptIntro : String :=
  "\n    You are a highly specific and strict bank statement transaction parser. Your task is to extract transactions\n    from the following bank statement text. This text is from an ABSA bank.\n\n    The text is very messy. Each transaction might span multiple lines, and the amount columns\n    (debit and credit) are often misaligned or mixed with the description. You must use a very strict\n    approach to identify transactions.\n\n    A transaction is a line of text that starts with a date in the format \"DD/MM/YYYY\".\n    Ignore any lines that do not start with a date, such as headers, footers, or account summaries.\n    For each transaction, extract the date, description, and amount.\n    The amount must be a number: positive for credits and negative for debits.\n    A credit amount will be a number in a credit column (often a final column) and will be positive.\n    A debit amount will either be a negative number or a positive number in a debit column, and it should be converted to a negative number.\n\n    The final output must be a clean JSON array of objects, with no extra text or explanation.\n\n    Fields to extract for each transaction object:\n    - \"date\": The transaction date in \"YYYY-MM-DD\" format.\n    - \"description\": A concise description of the transaction.\n    - \"amount\": The transaction amount as a number (e.g., 100.50 or -50.00).\n\n    Example of expected output format:\n    [\n      \x7b \"date\": \"2021-04-29\", \"description\": \"Acb Credit Yoco B5ccc7 Yoco\", \"amount\": 5421.42 \x7d,\n      \x7b \"date\": \"2021-04-30\", \"description\": \"Settlement Acb Credit Yoco Yoco B5ccc7\", \"amount\": 3922.64 \x7d,\n      \x7b \"date\": \"2021-05-01\", \"description\": \"Admin Charge Headoffice See Charge Statement Detail\", \"amount\": -83.00 \x7d\n    ]\n\n    Bank Statement Text:\n    "

/-- The full prompt posted to the API for a given extracted PDF text. -/
def buildPrompt (pdf_text : String) : String :=
  promptIntro ++ pdf_text ++ "\n    "

/-- The body of the `try` block of `process_with_ai`, with every Python
exception made explicit as an `Except.error`:
request failure, `raise_for_status`, `response.json()` failure, the
truthiness checks on `candidates` and `content`, the `parts[0]` index,
and `json.loads(raw_text)`.  A falsy response (`else` branch) is not an
exception: it returns `[]` after `st.error`. -/
def processBody (decode : Decoder) (o : ApiOutcome) : Except PyExc (List JObj) :=
  match o with
  | .requestException _ => .error .requestExc
  | .httpError _ => .error .httpErr
  | .invalidJsonBody => .error .jsonDecodeErr
  | .ok resp =>
    match resp.candidates with
    | none => .ok []
    | some [] => .ok []
    | some (c :: _) =>
      match c.content with
      | none => .ok []
      | some content =>
        match content.parts with
        | [] => .error .otherExc
        | t :: _ =>
          match decode t with
          | .ok txs => .ok txs
          | .error _ => .error .jsonDecodeErr

/-- Model of `process_with_ai(pdf_text)`: build the prompt, run the API
interaction, and catch every exception class to return `[]`, exactly as
the four `except` handlers do. -/
def process_with_ai (decode : Decoder) (env : ApiEnv) (pdf_text : String) : List JObj :=
  match processBody decode (env (buildPrompt pdf_text)) with
  | .ok txs => txs
  | .error _ => []

/-- The failure classes named by the specification for one document:
HTTP error, request failure, malformed or content-less API response, and
JSON decode failure.  Stated from the claim wording, to be compared with
the behaviour of `process_with_ai`. -/
def failureCase (decode : Decoder) (o : ApiOutcome) : Bool :=
  match o with
  | .requestException _ => true
  | .httpError _ => true
  | .invalidJsonBody => true
  | .ok resp =>
    match resp.candidates with
    | none => true
    | some [] => true
    | some (c :: _) =>
      match c.content with
      | none => true
      | some content =>
        match content.parts with
        | [] => true
        | t :: _ =>
          match decode t with
          | .ok _ => false
          | .error _ => true

/-- The text of one PDF page, as returned by `page.get_text()`; a
document is its ordered list of pages. -/
structure PdfDoc where
  pages : List String
  deriving DecidableEq, Repr

/-- One uploaded file: reading it (`getvalue` / `fitz.open` / the page
loop) either yields the document or raises, modelled as `Except`. -/
structure UploadedFile where
  name : String
  content : Except Unit PdfDoc
  deriving Repr

/-- Model of the page loop of `main`:
`full_text = ""` then `full_text += pdf_document.load_page(i).get_text()`
for `i in range(len(pdf_document))`. -/
def buildFullText (pages : List String) : String :=
  (List.range pages.length).foldl (fun acc i => acc ++ pages.getD i "") ""

/-- The body of the per-file `try` in `main`: read the PDF (which may
raise) and hand the concatenated text to `process_with_ai` (which never
raises). -/
def loopBody (decode : Decoder) (env : ApiEnv) (f : UploadedFile) :
    Except Unit (List JObj) :=
  match f.content with
  | .error e => .error e
  | .ok doc => .ok (process_with_ai decode env (buildFullText doc.pages))

/-- Model of the `for uploaded_file in uploaded_files` loop of `main`:
start from `all_transactions = []`; on success `extend`, on an exception
the handler reports the error and the loop continues with the
accumulator unchanged. -/
def mainLoop (decode : Decoder) (env : ApiEnv) (files : List UploadedFile) :
    List JObj :=
  files.foldl
    (fun acc f =>
      match loopBody decode env f with
      | .ok txs => acc ++ txs
      | .error _ => acc)
    []

/-- The transaction list one document contributes to `all_transactions`:
the extraction result on success, nothing on a per-file exception. -/
def docTransactions (decode : Decoder) (env : ApiEnv) (f : UploadedFile) :
    List JObj :=
  match loopBody decode env f with
  | .ok txs => txs
  | .error _ => []

/-- The column list `['date', 'description', 'amount']` passed to
`pd.DataFrame`. -/
def cols3 : List String := ["date", "description", "amount"]

/-- Python dict lookup `o.get(k)`: the value of the first binding of `k`,
if any. -/
def lookupKey (o : JObj) (k : String) : Option JVal :=
  (o.find? (fun p => p.1 == k)).map Prod.snd

/-- One DataFrame row built from one record: `pd.DataFrame(..., columns=cols)`
keeps exactly the listed columns, in order; a missing key becomes NaN
(here `none`). -/
def dataFrameRow (cols : List String) (o : JObj) : List (Option JVal) :=
  cols.map (lookupKey o)

/-- The DataFrame `pd.DataFrame(all_transactions, columns=cols3)`: one
row per record, in order. -/
def makeDataFrame (cols : List String) (objs : List JObj) :
    List (List (Option JVal)) :=
  objs.map (dataFrameRow cols)

/-- How `df.to_csv` prints one cell: strings as-is, numbers via their
decimal representation, missing values (NaN) as the empty string. -/
def renderCell : Option JVal → String
  | none => ""
  | some (.s v) => v
  | some (.n q) => toString q
  | some .null => ""

/-- The CSV table produced by `df.to_csv(index=False)`, as structured
rows of cells: the header row (the DataFrame columns) followed by one
row of rendered cells per record. -/
def toCsvTable (objs : List JObj) : List (List String) :=
  cols3 :: (makeDataFrame cols3 objs).map (fun row => row.map renderCell)

/-- The CSV text as a list of lines: each row's cells joined by commas. -/
def serializeLines (objs : List JObj) : List String :=
  (toCsvTable objs).map (fun r => String.intercalate "," r)

/-- What `main` shows after the loop: a download button plus preview
when `all_transactions` is truthy (non-empty), a warning otherwise. -/
inductive MainOutput where
  | csvDownload (table : List (List String))
  | warnEmpty
  deriving DecidableEq, Repr

/-- The emission step of `main`: `if all_transactions:` build the
DataFrame and CSV, `else` warn that nothing was extracted. -/
def emitResults (all_transactions : List JObj) : MainOutput :=
  match all_transactions with
  | [] => .warnEmpty
  | _ => .csvDownload (toCsvTable all_transactions)

/-- The whole conversion run of `main` over the uploaded files. -/
def mainRun (decode : Decoder) (env : ApiEnv) (files : List UploadedFile) :
    MainOutput :=
  emitResults (mainLoop decode env files)

end AbsaApp

namespace AbsaEngine

/-- Modelled from the spec: numeric digit-string accumulation used by
decimal parsing (the repository's extraction engine is not under `src/`;
`src/absa_app.py` delegates extraction to the remote AI). -/
def digitsToNat (cs : List Char) : Nat :=
  cs.foldl (fun a c => a * 10 + (c.toNat - 48)) 0

/-- The rational value of an integer digit group and a fractional digit
group. -/
def decimalValue (ip fp : List Char) : ℚ :=
  mkRat (digitsToNat ip * 10 ^ fp.length + digitsToNat fp) (10 ^ fp.length)

/-- Modelled from the spec: parse an unsigned decimal numeral — digits
with at most one decimal point and at least one digit. -/
def parseUnsigned (cs : List Char) : Option ℚ :=
  if cs.all (fun c => c.isDigit || c == '.') ∧ cs.any Char.isDigit
      ∧ cs.count '.' ≤ 1 then
    some (decimalValue (cs.takeWhile (fun c => !(c == '.')))
      ((cs.dropWhile (fun c => !(c == '.'))).drop 1))
  else none

/-- Modelled from the spec (§4.4 numeric parsing): strip spaces and
thousands-comma separators, then parse as a decimal, allowing one
leading hyphen for a negative value; any other residue rejects. -/
def parseDecimalChars (cs0 : List Char) : Option ℚ :=
  let cs := cs0.filter (fun c => !(c == ' ' || c == ','))
  if cs.head? = some '-' then (parseUnsigned cs.tail).map (fun q => -q)
  else parseUnsigned cs

/-- Modelled from the spec: decimal parsing of a raw numeric string. -/
def parseDecimal (s : String) : Option ℚ :=
  parseDecimalChars s.data

/-- Whether the raw string contains a literal hyphen. -/
def hasHyphen (s : String) : Bool :=
  s.data.contains '-'

/-- A blank string: empty or whitespace only. -/
def isBlank (s : String) : Bool :=
  s.data.all (fun c => c == ' ' || c == '\t' || c == '\n' || c == '\r')

/-- Modelled from the spec (§4.4): the debit-indicating keywords matched
case-sensitively against the description. -/
def debitKeywords : List String := ["Debit Amount", "Charge"]

/-- Does the pattern occur at the head of the character list? -/
def leadsWith : List Char → List Char → Bool
  | [], _ => true
  | _ :: _, [] => false
  | p :: ps, c :: cs => p == c && leadsWith ps cs

/-- Substring occurrence over character lists. -/
def occursIn (k : List Char) : List Char → Bool
  | [] => k.isEmpty
  | c :: cs => leadsWith k (c :: cs) || occursIn k cs

/-- Modelled from the spec (§4.4): does the description carry a
debit-indicating keyword? -/
def hasDebitKeyword (descr : String) : Bool :=
  debitKeywords.any (fun k => occursIn k.data descr.data)

/-- Modelled from the spec (§4.2/§4.3): the numeric fields a matched
candidate unit carries — either a split debit/credit column pair (debit
optional, credit mandatory but possibly blank) or one single amount
string. -/
inductive AmountFields where
  | columns (debit : Option String) (credit : String)
  | single (amount : String)
  deriving DecidableEq, Repr

/-- Which resolution rule produced the signed amount of an emitted
transaction. -/
inductive ResolvedFrom where
  | creditColumn
  | debitColumn
  | singleUnmarked
  | singleHyphen
  | singleKeyword
  deriving DecidableEq, Repr

/-- Modelled from the spec (§4.3): the result of pattern-matching one
candidate unit — date string, description, and the numeric fields. -/
structure MatchResult where
  dateStr : String
  descr : String
  fields : AmountFields
  deriving DecidableEq, Repr

/-- Modelled from the spec (§4.4): the debit-column fallback — a present
and non-blank debit string resolves to the negated absolute value of its
parse; otherwise no amount resolves. -/
def resolveDebit : Option String → Option (ℚ × ResolvedFrom)
  | some d =>
    if !isBlank d then
      (parseDecimal d).map (fun q => (-|q|, ResolvedFrom.debitColumn))
    else none
  | none => none

/-- Modelled from the spec (§4.4 Amount Resolver): credit column first
when present and non-blank (positive), else debit column (negative
absolute value), else the single amount with its sign forced negative by
a literal hyphen or a debit keyword in the description; parse failure
rejects the unit. -/
def resolveAmount (descr : String) : AmountFields → Option (ℚ × ResolvedFrom)
  | .columns debit credit =>
    if !isBlank credit then
      (parseDecimal credit).map (fun q => (q, ResolvedFrom.creditColumn))
    else resolveDebit debit
  | .single a =>
    (parseDecimal a).map (fun q =>
      if hasHyphen a then (-|q|, ResolvedFrom.singleHyphen)
      else if hasDebitKeyword descr then (-|q|, ResolvedFrom.singleKeyword)
      else (q, ResolvedFrom.singleUnmarked))

/-- The final record of the engine: date (ISO string), description,
signed amount. -/
structure Transaction where
  date : String
  descr : String
  amount : ℚ
  deriving DecidableEq, Repr

/-- Gregorian leap-year test, for calendar-aware date validation. -/
def isLeap (y : Nat) : Bool :=
  (y % 4 == 0 && y % 100 != 0) || y % 400 == 0

/-- Days in a month of a given year. -/
def daysInMonth (y m : Nat) : Nat :=
  if m = 2 then (if isLeap y then 29 else 28)
  else if m = 4 ∨ m = 6 ∨ m = 9 ∨ m = 11 then 30
  else 31

/-- Split a character list on a separator character; like Python
`str.split(sep)`, adjacent separators yield empty groups. -/
def splitOnChar (sep : Char) : List Char → List (List Char)
  | [] => [[]]
  | c :: rest =>
    if c = sep then [] :: splitOnChar sep rest
    else
      match splitOnChar sep rest with
      | [] => [[c]]
      | g :: gs => (c :: g) :: gs

/-- Is the group a non-empty run of decimal digits? -/
def allDigits (cs : List Char) : Bool :=
  !cs.isEmpty && cs.all Char.isDigit

/-- Modelled from the spec (§4.3/§4.5): parse a date of shape
`D{1,2}/M{1,2}/YYYY` with calendar-aware validation; a date that fails
calendar parsing is rejected. -/
def parseDateDMY (s : String) : Option (Nat × Nat × Nat) :=
  match splitOnChar '/' s.data with
  | [d, m, y] =>
    if allDigits d ∧ allDigits m ∧ allDigits y
        ∧ d.length ≤ 2 ∧ m.length ≤ 2 ∧ y.length = 4 then
      let dn := digitsToNat d
      let mn := digitsToNat m
      let yn := digitsToNat y
      if 1 ≤ mn ∧ mn ≤ 12 ∧ 1 ≤ dn ∧ dn ≤ daysInMonth yn mn then
        some (dn, mn, yn)
      else none
    else none
  | _ => none

/-- Zero-pad a day or month number to two digits. -/
def pad2 (n : Nat) : String :=
  if n < 10 then "0" ++ toString n else toString n

/-- Canonical `YYYY-MM-DD` rendering of a validated date. -/
def formatISO (y m d : Nat) : String :=
  toString y ++ "-" ++ pad2 m ++ "-" ++ pad2 d

/-- Modelled from the spec (§4.5 Record Builder): assemble a Transaction
from a MatchResult, rejecting silently when the date fails calendar
parsing or no amount can be resolved; the tag records which resolution
rule fired. -/
def recordBuilder (mr : MatchResult) : Option (Transaction × ResolvedFrom) :=
  match parseDateDMY mr.dateStr, resolveAmount mr.descr mr.fields with
  | some (d, m, y), some (q, tag) => some (⟨formatISO y m d, mr.descr, q⟩, tag)
  | _, _ => none

/-- The batch of emitted records, with their resolution tags, in unit
order: per-unit failure is fully isolated, a rejected unit contributes
nothing. -/
def buildBatch (mrs : List MatchResult) : List (Transaction × ResolvedFrom) :=
  mrs.filterMap recordBuilder

/-- The emitted Transaction sequence of one document. -/
def emittedBatch (mrs : List MatchResult) : List Transaction :=
  (buildBatch mrs).map Prod.fst

/-- A unit is valid when its date parses and an amount resolves. -/
def isValidUnit (mr : MatchResult) : Bool :=
  (parseDateDMY mr.dateStr).isSome && (resolveAmount mr.descr mr.fields).isSome

/-- The record a Transaction contributes to the caller's DataFrame. -/
def txToObj (t : Transaction) : AbsaApp.JObj :=
  [("date", AbsaApp.JVal.s t.date), ("description", AbsaApp.JVal.s t.descr),
   ("amount", AbsaApp.JVal.n t.amount)]

/-- Are the column strings of the numeric fields hyphen-free?  A single
amount string may carry a hyphen (its sign marker). -/
def creditHyphenFree : AmountFields → Bool
  | .columns _ credit => !hasHyphen credit
  | .single _ => true

end AbsaEngine

namespace AbsaApp

theorem catch_of_failure (decode : Decoder) (o : ApiOutcome)
    (h : failureCase decode o = true) :
    (match processBody decode o with
      | .ok txs => txs
      | .error _ => ([] : List JObj)) = [] := by
  cases o with
  | requestException m => rfl
  | httpError c => rfl
  | invalidJsonBody => rfl
  | ok resp =>
    obtain ⟨cands⟩ := resp
    cases cands with
    | none => rfl
    | some l =>
      cases l with
      | nil => rfl
      | cons c cs =>
        obtain ⟨ct⟩ := c
        cases ct with
        | none => rfl
        | some content =>
          obtain ⟨parts⟩ := content
          cases parts with
          | nil => rfl
          | cons t ts =>
            cases hd : decode t with
            | ok txs => simp [failureCase, hd] at h
            | error e => simp [processBody, hd]

/-- C1: for every decoder, API environment and input document text,
whenever the interaction falls in a failure class (HTTP error, request
failure, malformed or content-less response body, JSON decode failure),
`process_with_ai` returns the empty list instead of propagating the
exception; it is a total function, so total failure for a document is
signalled only by an empty result. -/
theorem c1_process_with_ai_failure_empty (decode : Decoder) (env : ApiEnv)
    (pdf_text : String)
    (h : failureCase decode (env (buildPrompt pdf_text)) = true) :
    process_with_ai decode env pdf_text = [] := by
  have := catch_of_failure decode (env (buildPrompt pdf_text)) h
  simpa [process_with_ai] using this

/-- A decoder that always fails, used to exercise failure paths. -/
def decodeFail : Decoder := fun _ => .error ()

/-- An environment whose HTTP interaction always ends in status 500. -/
def envHttp500 : ApiEnv := fun _ => .httpError 500

/-- Witness for C1: on an HTTP 500 outcome, `process_with_ai` returns
the empty list. -/
theorem c1_witness :
    failureCase decodeFail (envHttp500 (buildPrompt "stmt")) = true ∧
    process_with_ai decodeFail envHttp500 "stmt" = [] :=
  ⟨rfl, c1_process_with_ai_failure_empty decodeFail envHttp500 "stmt" rfl⟩

theorem mainLoop_eq_join (decode : Decoder) (env : ApiEnv)
    (files : List UploadedFile) :
    mainLoop decode env files =
      (files.map (docTransactions decode env)).flatten := by
  have go : ∀ (fs : List UploadedFile) (acc : List JObj),
      fs.foldl
        (fun acc f =>
          match loopBody decode env f with
          | .ok txs => acc ++ txs
          | .error _ => acc) acc
        = acc ++ (fs.map (docTransactions decode env)).flatten := by
    intro fs
    induction fs with
    | nil => intro acc; simp
    | cons g gs ih =>
      intro acc
      simp only [List.foldl_cons, List.map_cons, List.flatten_cons]
      cases hg : loopBody decode env g with
      | ok txs => rw [ih]; simp [docTransactions, hg]
      | error e => rw [ih]; simp [docTransactions, hg]
  simpa [mainLoop] using go files []

/-- C2: if reading or processing one uploaded document raises (its loop
body ends in an exception), that document contributes nothing and every
other document is still processed: the combined result over
`pre ++ f :: post` is exactly the result over `pre` followed by the
result over `post`. -/
theorem c2_one_failure_does_not_abort (decode : Decoder) (env : ApiEnv)
    (pre post : List UploadedFile) (f : UploadedFile) (e : Unit)
    (hf : loopBody decode env f = .error e) :
    mainLoop decode env (pre ++ f :: post) =
      mainLoop decode env pre ++ mainLoop decode env post := by
  rw [mainLoop_eq_join, mainLoop_eq_join, mainLoop_eq_join]
  simp [docTransactions, hf]

/-- A file whose read fails (e.g. `fitz.open` raises on corrupt bytes). -/
def badFile : UploadedFile := ⟨"corrupt.pdf", .error ()⟩

/-- A small readable two-page file. -/
def goodFile : UploadedFile := ⟨"a.pdf", .ok ⟨["page one ", "page two"]⟩⟩

/-- Witness for C2: with a failing file between two good ones, the
combined output equals the concatenation over the good ones. -/
theorem c2_witness :
    loopBody decodeFail envHttp500 badFile = .error () ∧
    mainLoop decodeFail envHttp500 [goodFile, badFile, goodFile] =
      mainLoop decodeFail envHttp500 [goodFile] ++
        mainLoop decodeFail envHttp500 [goodFile] :=
  ⟨rfl, c2_one_failure_does_not_abort decodeFail envHttp500 [goodFile]
    [goodFile] badFile () rfl⟩

/-- C3: the combined `all_transactions` list is exactly the
concatenation, in upload order, of each document's transaction list,
with in-document order preserved and no deduplication or merging. -/
theorem c3_output_is_ordered_concatenation (decode : Decoder) (env : ApiEnv)
    (files : List UploadedFile) :
    mainLoop decode env files =
      (files.map (docTransactions decode env)).flatten :=
  mainLoop_eq_join decode env files

theorem foldl_range_getD (l : List String) (acc : String) :
    (List.range l.length).foldl (fun a i => a ++ l.getD i "") acc =
      l.foldl (· ++ ·) acc := by
  induction l generalizing acc with
  | nil => simp
  | cons x xs ih =>
    rw [List.length_cons, List.range_succ_eq_map]
    simp only [List.foldl_cons, List.getD_cons_zero, List.foldl_map,
      List.getD_cons_succ]
    exact ih (acc ++ x)

theorem buildFullText_eq_join (pages : List String) :
    buildFullText pages = String.join pages := by
  rw [buildFullText, foldl_range_getD]
  rfl

/-- C6: for a readable document, the text handed to the extraction
function is the concatenation of the per-page texts in ascending page
order — no page omitted, reordered, or duplicated. -/
theorem c6_text_is_page_concatenation (decode : Decoder) (env : ApiEnv)
    (f : UploadedFile) (doc : PdfDoc) (h : f.content = .ok doc) :
    loopBody decode env f =
      .ok (process_with_ai decode env (String.join doc.pages)) := by
  simp [loopBody, h, buildFullText_eq_join]

/-- Witness for C6: the two-page file is processed on the join of its
two pages. -/
theorem c6_witness :
    goodFile.content = .ok ⟨["page one ", "page two"]⟩ ∧
    loopBody decodeFail envHttp500 goodFile =
      .ok (process_with_ai decodeFail envHttp500
        (String.join ["page one ", "page two"])) :=
  ⟨rfl, c6_text_is_page_concatenation decodeFail envHttp500 goodFile
    ⟨["page one ", "page two"]⟩ rfl⟩

/-- C5: for every non-empty combined transaction list, the CSV's first
line is exactly the header `date,description,amount`, and every record
row exposes exactly the three fields date, description, amount, rendered
in that order. -/
theorem c5_csv_header_and_three_fields (objs : List JObj) (h : objs ≠ []) :
    (serializeLines objs).head? = some "date,description,amount" ∧
    (toCsvTable objs).head? = some ["date", "description", "amount"] ∧
    ∀ r ∈ (toCsvTable objs).tail,
      ∃ o ∈ objs,
        r = [renderCell (lookupKey o "date"),
          renderCell (lookupKey o "description"),
          renderCell (lookupKey o "amount")] := by
  refine ⟨rfl, rfl, ?_⟩
  intro r hr
  simp only [toCsvTable, makeDataFrame, List.tail_cons, List.map_map,
    List.mem_map] at hr
  obtain ⟨o, ho, rfl⟩ := hr
  exact ⟨o, ho, by simp [dataFrameRow, cols3]⟩

/-- A one-record transaction list for witnesses. -/
def objs0 : List JObj :=
  [[("date", JVal.s "2021-04-29"), ("description", JVal.s "Yoco"),
    ("amount", JVal.n 83)]]

/-- Witness for C5 at a concrete one-record list. -/
theorem c5_witness :
    objs0 ≠ [] ∧
    ((serializeLines objs0).head? = some "date,description,amount" ∧
     (toCsvTable objs0).head? = some ["date", "description", "amount"] ∧
     ∀ r ∈ (toCsvTable objs0).tail,
       ∃ o ∈ objs0,
         r = [renderCell (lookupKey o "date"),
           renderCell (lookupKey o "description"),
           renderCell (lookupKey o "amount")]) :=
  ⟨by decide, c5_csv_header_and_three_fields objs0 (by decide)⟩

/-- A decoder modelling `json.loads` succeeding on the response text
`T` with one decoded transaction object. -/
def decodeOneTx : Decoder := fun s =>
  if s = "T" then .ok [[("amount", JVal.n 1)]] else .error ()

/-- An environment whose API interaction succeeds with one content part
whose text is `T`. -/
def envOkOne : ApiEnv := fun _ => .ok ⟨some [⟨some ⟨["T"]⟩⟩]⟩

/-- C7 counterexample: `process_with_ai` is not purely functional over
its input text — for the same input text, its result depends on the
outcome of the external HTTP interaction, so it is not free of external
resources. -/
theorem c7_counterexample :
    process_with_ai decodeOneTx envOkOne "stmt" ≠
      process_with_ai decodeOneTx envHttp500 "stmt" := by
  intro h
  have h1 : process_with_ai decodeOneTx envOkOne "stmt" =
      [[("amount", JVal.n 1)]] := rfl
  have h2 : process_with_ai decodeOneTx envHttp500 "stmt" = [] := rfl
  rw [h1, h2] at h
  exact List.noConfusion h

/-- C7 (amended): `process_with_ai` is deterministic given the external
API: its result depends on the environment only through the response to
the one prompt it posts, so two runs on the same text under agreeing
API responses yield the same transaction list. -/
theorem c7_amended_deterministic_given_api (decode : Decoder)
    (env₁ env₂ : ApiEnv) (pdf_text : String)
    (h : env₁ (buildPrompt pdf_text) = env₂ (buildPrompt pdf_text)) :
    process_with_ai decode env₁ pdf_text =
      process_with_ai decode env₂ pdf_text := by
  unfold process_with_ai
  rw [h]

/-- Witness for the amended C7 at a concrete decoder, environment and
text. -/
theorem c7_amended_witness :
    envHttp500 (buildPrompt "x") = envHttp500 (buildPrompt "x") ∧
    process_with_ai decodeFail envHttp500 "x" =
      process_with_ai decodeFail envHttp500 "x" :=
  ⟨rfl, c7_amended_deterministic_given_api decodeFail envHttp500 envHttp500
    "x" rfl⟩

theorem lookupKey_cons (p : String × JVal) (o : JObj) (c : String) :
    lookupKey (p :: o) c = if p.1 == c then some p.2 else lookupKey o c := by
  by_cases h : p.1 == c <;> simp [lookupKey, List.find?_cons, h]

theorem lookupKey_append_middle (o₁ o₂ : JObj) (k c : String) (v : JVal)
    (hkc : (k == c) = false) :
    lookupKey (o₁ ++ (k, v) :: o₂) c = lookupKey (o₁ ++ o₂) c := by
  induction o₁ with
  | nil => simp [lookupKey_cons, hkc]
  | cons p ps ih => simp [List.cons_append, lookupKey_cons, ih]

/-- C9: keys other than date, description and amount are silently
dropped at the output stage — inserting an extra-key binding anywhere in
a record leaves its DataFrame row unchanged, and every row has exactly
the three columns date, description, amount. -/
theorem c9_extra_keys_dropped (o₁ o₂ : JObj) (k : String) (v : JVal)
    (hk : k ∉ cols3) :
    dataFrameRow cols3 (o₁ ++ (k, v) :: o₂) = dataFrameRow cols3 (o₁ ++ o₂) ∧
    ∀ o : JObj, (dataFrameRow cols3 o).length = 3 := by
  constructor
  · obtain ⟨h1, h2, h3⟩ : k ≠ "date" ∧ k ≠ "description" ∧ k ≠ "amount" := by
      simpa [cols3] using hk
    simp [dataFrameRow, cols3,
      lookupKey_append_middle o₁ o₂ k "date" v (beq_eq_false_iff_ne.mpr h1),
      lookupKey_append_middle o₁ o₂ k "description" v
        (beq_eq_false_iff_ne.mpr h2),
      lookupKey_append_middle o₁ o₂ k "amount" v (beq_eq_false_iff_ne.mpr h3)]
  · intro o
    simp [dataFrameRow, cols3]

/-- Witness for C9: an `extra` binding inserted into a record does not
change its DataFrame row. -/
theorem c9_witness :
    "extra" ∉ cols3 ∧
    (dataFrameRow cols3 ([("date", JVal.s "2021-04-29")] ++
        ("extra", JVal.s "zz") :: [("amount", JVal.n 83)]) =
      dataFrameRow cols3 ([("date", JVal.s "2021-04-29")] ++
        [("amount", JVal.n 83)]) ∧
     ∀ o : JObj, (dataFrameRow cols3 o).length = 3) :=
  ⟨by decide, c9_extra_keys_dropped [("date", JVal.s "2021-04-29")]
    [("amount", JVal.n 83)] "extra" (JVal.s "zz") (by decide)⟩

/-- C10: a CSV download is produced iff the combined transaction list is
non-empty; when it is empty the run ends in the warning instead, and the
emission step is a total function, so no exception is raised either
way. -/
theorem c10_csv_iff_nonempty (decode : Decoder) (env : ApiEnv)
    (files : List UploadedFile) :
    ((∃ table, mainRun decode env files = .csvDownload table) ↔
      mainLoop decode env files ≠ []) ∧
    (mainRun decode env files = .warnEmpty ↔
      mainLoop decode env files = []) := by
  unfold mainRun emitResults
  cases h : mainLoop decode env files with
  | nil => simp
  | cons a l => simp

end AbsaApp

namespace AbsaEngine

theorem decimalValue_nonneg (ip fp : List Char) : 0 ≤ decimalValue ip fp := by
  rw [decimalValue, Rat.mkRat_eq_divInt]
  exact Rat.divInt_nonneg (by positivity) (by positivity)

theorem parseUnsigned_nonneg (cs : List Char) (q : ℚ)
    (h : parseUnsigned cs = some q) : 0 ≤ q := by
  unfold parseUnsigned at h
  split at h
  · injection h with h'
    subst h'
    exact decimalValue_nonneg _ _
  · exact absurd h (by simp)

theorem parseDecimalChars_nonneg (cs0 : List Char) (q : ℚ)
    (h0 : '-' ∉ cs0) (h : parseDecimalChars cs0 = some q) : 0 ≤ q := by
  unfold parseDecimalChars at h
  have hhd : ((cs0.filter fun c => !(c == ' ' || c == ',')).head? = some '-')
      → False := by
    intro hc
    cases hl : cs0.filter fun c => !(c == ' ' || c == ',') with
    | nil => rw [hl] at hc; exact Option.noConfusion hc
    | cons a l =>
      rw [hl] at hc
      have ha : a = '-' := by simpa using hc
      have : a ∈ cs0.filter fun c => !(c == ' ' || c == ',') := by
        rw [hl]; exact List.mem_cons_self a l
      exact h0 (ha ▸ List.mem_of_mem_filter this)
  rw [if_neg hhd] at h
  exact parseUnsigned_nonneg _ _ h

theorem parseDecimal_nonneg (s : String) (q : ℚ)
    (h0 : hasHyphen s = false) (h : parseDecimal s = some q) : 0 ≤ q := by
  refine parseDecimalChars_nonneg s.data q ?_ h
  intro hm
  have ht : hasHyphen s = true := List.elem_eq_true_of_mem hm
  rw [h0] at ht
  exact Bool.noConfusion ht

end AbsaEngine

namespace AbsaEngine

theorem recordBuilder_isSome_iff (mr : MatchResult) :
    (recordBuilder mr).isSome = isValidUnit mr := by
  unfold recordBuilder isValidUnit
  cases hd : parseDateDMY mr.dateStr with
  | none => simp
  | some dmy =>
    obtain ⟨d, m, y⟩ := dmy
    cases ha : resolveAmount mr.descr mr.fields with
    | none => simp
    | some qt =>
      obtain ⟨q, tag⟩ := qt
      simp

theorem buildBatch_filter_valid (mrs : List MatchResult) :
    buildBatch mrs = buildBatch (mrs.filter isValidUnit) := by
  unfold buildBatch
  induction mrs with
  | nil => rfl
  | cons mr rest ih =>
    cases hr : recordBuilder mr with
    | none =>
      have hv : isValidUnit mr = false := by
        rw [← recordBuilder_isSome_iff, hr]
        rfl
      rw [List.filter_cons_of_neg (by simp [hv])]
      simp [List.filterMap_cons, hr, ih]
    | some p =>
      have hv : isValidUnit mr = true := by
        rw [← recordBuilder_isSome_iff, hr]
        rfl
      rw [List.filter_cons_of_pos (by simp [hv])]
      simp [List.filterMap_cons, hr, ih]

theorem recordBuilder_some_elim (mr : MatchResult) (t : Transaction)
    (tag : ResolvedFrom) (h : recordBuilder mr = some (t, tag)) :
    ∃ d m y, parseDateDMY mr.dateStr = some (d, m, y) ∧
      t.date = formatISO y m d ∧ t.descr = mr.descr ∧
      resolveAmount mr.descr mr.fields = some (t.amount, tag) := by
  unfold recordBuilder at h
  cases hd : parseDateDMY mr.dateStr with
  | none => rw [hd] at h; exact absurd h (by simp)
  | some dmy =>
    obtain ⟨d, m, y⟩ := dmy
    cases ha : resolveAmount mr.descr mr.fields with
    | none => rw [hd, ha] at h; exact absurd h (by simp)
    | some qt =>
      obtain ⟨q, tg⟩ := qt
      rw [hd, ha] at h
      injection h with h'
      simp only [Prod.mk.injEq] at h'
      obtain ⟨h1, h2⟩ := h'
      subst h2
      refine ⟨d, m, y, rfl, ?_, ?_, ?_⟩
      · rw [← h1]
      · rw [← h1]
      · rw [← h1]

/-- C4: every Transaction in the emitted batch comes from a unit whose
date parsed and whose amount resolved (so its output date is the ISO
rendering of a calendar-valid date and its amount is the resolved,
non-null value); units failing either check are dropped before emission
(filtering invalid units changes nothing); and the record handed to the
DataFrame carries that amount in its `amount` column, never a missing
value. -/
theorem c4_emitted_records_valid (mrs : List MatchResult) (t : Transaction)
    (h : t ∈ emittedBatch mrs) :
    (∃ mr, mr ∈ mrs ∧ ∃ d m y, parseDateDMY mr.dateStr = some (d, m, y) ∧
      t.date = formatISO y m d ∧
      ∃ tag, resolveAmount mr.descr mr.fields = some (t.amount, tag)) ∧
    emittedBatch mrs = emittedBatch (mrs.filter isValidUnit) ∧
    AbsaApp.lookupKey (txToObj t) "amount" =
      some (AbsaApp.JVal.n t.amount) := by
  refine ⟨?_, ?_, ?_⟩
  · unfold emittedBatch buildBatch at h
    obtain ⟨p, hp, hpt⟩ := List.mem_map.mp h
    obtain ⟨mr, hmr, hrb⟩ := List.mem_filterMap.mp hp
    obtain ⟨tx, tag⟩ := p
    have htx : tx = t := hpt
    subst htx
    obtain ⟨d, m, y, hd, hdate, _, hres⟩ :=
      recordBuilder_some_elim mr tx tag hrb
    exact ⟨mr, hmr, d, m, y, hd, hdate, tag, hres⟩
  · unfold emittedBatch
    rw [buildBatch_filter_valid]
  · rfl

/-- A one-unit document whose split-column credit is `5421.42`. -/
def mrs0 : List MatchResult :=
  [⟨"29/04/2021", "Acb Credit Yoco B5ccc7 Yoco",
    .columns none "5421.42"⟩]

/-- The Transaction the unit of `mrs0` emits. -/
def tx0 : Transaction :=
  ⟨"2021-04-29", "Acb Credit Yoco B5ccc7 Yoco", mkRat 542142 100⟩

/-- Witness for C4 at the concrete one-unit batch `mrs0`. -/
theorem c4_witness :
    tx0 ∈ emittedBatch mrs0 ∧
    ((∃ mr, mr ∈ mrs0 ∧ ∃ d m y, parseDateDMY mr.dateStr = some (d, m, y) ∧
        tx0.date = formatISO y m d ∧
        ∃ tag, resolveAmount mr.descr mr.fields = some (tx0.amount, tag)) ∧
      emittedBatch mrs0 = emittedBatch (mrs0.filter isValidUnit) ∧
      AbsaApp.lookupKey (txToObj tx0) "amount" =
        some (AbsaApp.JVal.n tx0.amount)) :=
  ⟨by decide, c4_emitted_records_valid mrs0 tx0 (by decide)⟩

end AbsaEngine

namespace AbsaEngine

/-- A unit whose credit column reads `0.00`: it is emitted with amount
zero. -/
def mrZeroCredit : MatchResult :=
  ⟨"29/04/2021", "Acb Credit", .columns none "0.00"⟩

/-- The zero-amount transaction `mrZeroCredit` emits. -/
def txZero : Transaction := ⟨"2021-04-29", "Acb Credit", 0⟩

/-- C8 counterexample: a unit resolved from the credit column whose
value is `0.00` is emitted with amount 0, so `amount > 0` fails even
though the record was resolved from a credit column — the claimed
equivalence is false as stated. -/
theorem c8_counterexample :
    recordBuilder mrZeroCredit = some (txZero, ResolvedFrom.creditColumn) ∧
    ¬ (0 < txZero.amount ↔
        (ResolvedFrom.creditColumn = ResolvedFrom.creditColumn ∨
         ResolvedFrom.creditColumn = ResolvedFrom.singleUnmarked)) := by
  constructor
  · decide
  · decide

/-- C8 (amended): for every emitted Transaction whose amount is nonzero
and whose column strings are hyphen-free, `amount > 0` iff it was
resolved from the credit column or an unmarked-positive single amount,
and `amount < 0` iff it was resolved from the debit column, a
hyphenated single amount, or a debit-keyword-flagged description. -/
theorem c8_amended_sign_invariant (mr : MatchResult) (t : Transaction)
    (tag : ResolvedFrom) (h : recordBuilder mr = some (t, tag))
    (hnz : t.amount ≠ 0) (hcr : creditHyphenFree mr.fields = true) :
    (0 < t.amount ↔ tag = ResolvedFrom.creditColumn ∨
      tag = ResolvedFrom.singleUnmarked) ∧
    (t.amount < 0 ↔ tag = ResolvedFrom.debitColumn ∨
      tag = ResolvedFrom.singleHyphen ∨ tag = ResolvedFrom.singleKeyword) := by
  obtain ⟨d, m, y, hd, hdate, hdescr, hres⟩ := recordBuilder_some_elim mr t tag h
  cases hfld : mr.fields with
  | columns debit credit =>
    rw [hfld] at hres hcr
    have hch : hasHyphen credit = false := by
      simpa [creditHyphenFree] using hcr
    simp only [resolveAmount] at hres
    by_cases hb : isBlank credit
    · rw [if_neg (by simp [hb])] at hres
      cases debit with
      | none => exact absurd hres (by simp [resolveDebit])
      | some dstr =>
        simp only [resolveDebit] at hres
        by_cases hdb : isBlank dstr
        · rw [if_neg (by simp [hdb])] at hres
          exact absurd hres (by simp)
        · rw [if_pos (by simp [hdb])] at hres
          rw [Option.map_eq_some'] at hres
          obtain ⟨q, hq, hval⟩ := hres
          simp only [Prod.mk.injEq] at hval
          obtain ⟨hamt, htag⟩ := hval
          subst htag
          have hlt : t.amount < 0 := by
            rw [← hamt] at hnz ⊢
            have habs : |q| ≠ 0 := fun h0 => hnz (by rw [h0, neg_zero])
            have hpos : 0 < |q| := lt_of_le_of_ne (abs_nonneg q) (Ne.symm habs)
            linarith
          exact ⟨iff_of_false (asymm hlt) (by decide),
            iff_of_true hlt (by decide)⟩
    · rw [if_pos (by simp [hb])] at hres
      rw [Option.map_eq_some'] at hres
      obtain ⟨q, hq, hval⟩ := hres
      simp only [Prod.mk.injEq] at hval
      obtain ⟨hamt, htag⟩ := hval
      subst htag
      have hq0 : 0 ≤ q := parseDecimal_nonneg credit q hch hq
      have hgt : 0 < t.amount := by
        rw [← hamt] at hnz ⊢
        exact lt_of_le_of_ne hq0 (Ne.symm hnz)
      exact ⟨iff_of_true hgt (by decide), iff_of_false (asymm hgt) (by decide)⟩
  | single a =>
    rw [hfld] at hres
    simp only [resolveAmount] at hres
    rw [Option.map_eq_some'] at hres
    obtain ⟨q, hq, hval⟩ := hres
    by_cases hH : hasHyphen a
    · rw [if_pos hH] at hval
      simp only [Prod.mk.injEq] at hval
      obtain ⟨hamt, htag⟩ := hval
      subst htag
      have hlt : t.amount < 0 := by
        rw [← hamt] at hnz ⊢
        have habs : |q| ≠ 0 := fun h0 => hnz (by rw [h0, neg_zero])
        have hpos : 0 < |q| := lt_of_le_of_ne (abs_nonneg q) (Ne.symm habs)
        linarith
      exact ⟨iff_of_false (asymm hlt) (by decide), iff_of_true hlt (by decide)⟩
    · rw [if_neg hH] at hval
      by_cases hK : hasDebitKeyword mr.descr
      · rw [if_pos hK] at hval
        simp only [Prod.mk.injEq] at hval
        obtain ⟨hamt, htag⟩ := hval
        subst htag
        have hlt : t.amount < 0 := by
          rw [← hamt] at hnz ⊢
          have habs : |q| ≠ 0 := fun h0 => hnz (by rw [h0, neg_zero])
          have hpos : 0 < |q| := lt_of_le_of_ne (abs_nonneg q) (Ne.symm habs)
          linarith
        exact ⟨iff_of_false (asymm hlt) (by decide), iff_of_true hlt (by decide)⟩
      · rw [if_neg hK] at hval
        simp only [Prod.mk.injEq] at hval
        obtain ⟨hamt, htag⟩ := hval
        subst htag
        have hq0 : 0 ≤ q := by
          refine parseDecimal_nonneg a q ?_ hq
          simpa using hH
        have hgt : 0 < t.amount := by
          rw [← hamt] at hnz ⊢
          exact lt_of_le_of_ne hq0 (Ne.symm hnz)
        exact ⟨iff_of_true hgt (by decide), iff_of_false (asymm hgt) (by decide)⟩

/-- A credit-column unit with value 83.00, for the amended C8. -/
def mrCredit83 : MatchResult :=
  ⟨"29/04/2021", "Acb Credit Yoco", .columns none "83.00"⟩

/-- The transaction `mrCredit83` emits. -/
def txCredit83 : Transaction := ⟨"2021-04-29", "Acb Credit Yoco", mkRat 8300 100⟩

/-- Witness for the amended C8 at the concrete credit-column unit. -/
theorem c8_witness :
    (recordBuilder mrCredit83 = some (txCredit83, ResolvedFrom.creditColumn) ∧
      txCredit83.amount ≠ 0 ∧ creditHyphenFree mrCredit83.fields = true) ∧
    ((0 < txCredit83.amount ↔
        ResolvedFrom.creditColumn = ResolvedFrom.creditColumn ∨
        ResolvedFrom.creditColumn = ResolvedFrom.singleUnmarked) ∧
     (txCredit83.amount < 0 ↔
        ResolvedFrom.creditColumn = ResolvedFrom.debitColumn ∨
        ResolvedFrom.creditColumn = ResolvedFrom.singleHyphen ∨
        ResolvedFrom.creditColumn = ResolvedFrom.singleKeyword)) :=
  ⟨⟨by decide, by decide, by decide⟩,
   c8_amended_sign_invariant mrCredit83 txCredit83 ResolvedFrom.creditColumn
     (by decide) (by decide) (by decide)⟩

end AbsaEngine
